import Mathlib

/-!
Verification of the Jackett search plugin (src/plugins.v2/jackett/__init__.py).

The development shallowly embeds the torznab XML parsing of the plugin
(`_parse_torznab_xml`), the per-indexer query-parameter construction
(`_search_indexer`), and the multi-indexer aggregation loop (`search_medias`).

XML documents are modelled as a tree of elements (tag, attributes, optional
text, children), mirroring what `xml.etree.ElementTree` hands the plugin.
Python `None` is modelled as `Option.none`; a Python string is `some s`.
Exceptions are modelled with `Except Unit`: a raised exception is `.error ()`
and is caught exactly where the source code catches it.
-/

namespace Jackett

/-- An XML element as seen through `xml.etree.ElementTree`: a tag (with any
XML namespace already expanded into the tag string), an attribute list,
optional text, and a list of child elements. -/
inductive Element where
  | mk (tag : String) (attrs : List (String × String)) (text : Option String)
       (children : List Element)

def Element.tag : Element → String
  | .mk t _ _ _ => t

def Element.attrs : Element → List (String × String)
  | .mk _ a _ _ => a

def Element.text : Element → Option String
  | .mk _ _ x _ => x

def Element.children : Element → List Element
  | .mk _ _ _ c => c

/-- Model of `el.get(key)`: attribute lookup, `None` when absent. -/
def getAttr (e : Element) (key : String) : Option String :=
  (e.attrs.find? (fun p => p.1 == key)).map (fun p => p.2)

mutual

/-- All proper descendants of an element in document (preorder) order;
this is what an ElementTree `.//` path iterates over. -/
def Element.subElems : Element → List Element
  | .mk _ _ _ cs => Element.subElemsList cs

def Element.subElemsList : List Element → List Element
  | [] => []
  | c :: cs => c :: Element.subElems c ++ Element.subElemsList cs

end

/-- Model of `el.findall(".//tag")`: every descendant with the given tag,
in document order. -/
def findAllDesc (e : Element) (t : String) : List Element :=
  e.subElems.filter (fun c => c.tag == t)

/-- Model of `el.find(tag)`: first direct child with the given tag, `None`
when absent. -/
def findChild (e : Element) (t : String) : Option Element :=
  e.children.find? (fun c => c.tag == t)

/-- Model of `el.findall(tag)`: all direct children with the given tag, in
order. -/
def childrenTagged (e : Element) (t : String) : List Element :=
  e.children.filter (fun c => c.tag == t)

/-- The fully-expanded tag of a torznab `attr` element,
as produced by the namespace map used in the source
(torznab maps to http://torznab.com/schemas/2015/feed). -/
def tnAttrTag : String := "\x7bhttp://torznab.com/schemas/2015/feed\x7dattr"

/-- Search of the source for a magnet link:
item.find with path .//torznab:attr[@name=magneturl] under the torznab
namespace map — the first descendant torznab `attr` element whose `name`
attribute is the string magneturl. -/
def findMagnet (item : Element) : Option Element :=
  item.subElems.find? (fun c =>
    c.tag == tnAttrTag && getAttr c "name" == some "magneturl")

/-- Python truthiness of a `str`-or-`None` value: `None` and the empty
string are falsy. -/
def truthy : Option String → Bool
  | none => false
  | some s => s != ""

/-- All decimal digits, nonempty, folded to a natural number;
models the digit core accepted by the Python built-in `int`. -/
def parseDigits (cs : List Char) : Option Nat :=
  match cs with
  | [] => none
  | _ =>
    cs.foldl (fun acc c =>
      match acc with
      | none => none
      | some n => if c.isDigit then some (n * 10 + (c.toNat - 48)) else none)
      (some 0)

/-- ASCII whitespace as stripped by the Python built-in `int`. -/
def isPySpace (c : Char) : Bool :=
  c = ' ' || c = '\t' || c = '\n' || c = '\r' || c = '\x0b' || c = '\x0c'

/-- Strip leading and trailing whitespace from a character list. -/
def trimChars (cs : List Char) : List Char :=
  ((cs.dropWhile isPySpace).reverse.dropWhile isPySpace).reverse

/-- Model of the Python built-in `int(s)` on strings: surrounding whitespace
stripped, an optional sign, then at least one decimal digit; anything else
raises (returns `none` here). Digit-group underscores are not modelled;
no input in this development uses them. -/
def pyInt (s : String) : Option Int :=
  match trimChars s.data with
  | '+' :: rest => (parseDigits rest).map (fun n => (n : Int))
  | '-' :: rest => (parseDigits rest).map (fun n => -(n : Int))
  | cs => (parseDigits cs).map (fun n => (n : Int))

/-- One parsed torznab item, mirroring the result dict built by
`_parse_torznab_xml`. The `site` key is absent at parse time; it is added
later by the aggregation loop (see `TaggedResult`). Fields that can hold
Python `None` are `Option String`. -/
structure SearchResult where
  title : Option String
  magnet_link : String
  enclosure : String
  description : String
  type : String
  size : Int
  pubdate : Option String
  seeders : Int
  peers : Int
  leechers : Int
  page_url : Option String
deriving DecidableEq

/-- The link-resolution chain of `_parse_torznab_xml`: scan the direct
`enclosure` children and take the `url` attribute of the first one whose
`type` attribute is application/x-bittorrent (the loop breaks there even
when that enclosure has no `url`). -/
def enclosureLink : List Element → Option String
  | [] => none
  | e :: rest =>
    if getAttr e "type" == some "application/x-bittorrent" then getAttr e "url"
    else enclosureLink rest

/-- The full link resolution of `_parse_torznab_xml`: the enclosure scan;
when its result is falsy, the magneturl torznab attr (whose `value`
attribute is taken even when absent, shadowing the last fallback); when no
magneturl element exists, the text of the plain `link` child. -/
def resolveLink (item : Element) : Option String :=
  let link := enclosureLink (childrenTagged item "enclosure")
  if truthy link then link
  else
    match findMagnet item with
    | some magnet => getAttr magnet "value"
    | none =>
      match findChild item "link" with
      | some le => le.text
      | none => none

/-- Title extraction: the text of the `title` child when the child is present
(Python `None` when the child is empty), the empty string when absent. -/
def titleOf (item : Element) : Option String :=
  match findChild item "title" with
  | some t => t.text
  | none => some ""

/-- Publish date: the text of the `pubDate` child when present, else the
empty string. -/
def pubdateOf (item : Element) : Option String :=
  match findChild item "pubDate" with
  | some p => p.text
  | none => some ""

/-- Size coercion: `int(size_elem.text)` when a `size` child is present —
which raises when the child has no text or non-numeric text — and `0`
when the child is absent. -/
def parseSize (item : Element) : Except Unit Int :=
  match findChild item "size" with
  | none => .ok 0
  | some el =>
    match el.text with
    | none => .error ()
    | some s =>
      match pyInt s with
      | some n => .ok n
      | none => .error ()

/-- The seeders/peers scan over every descendant torznab `attr` element:
an attr named seeders with a truthy value sets seeders (int conversion may
raise), else one named peers sets peers; later elements overwrite earlier
ones. Both counters start at `0`. -/
def scanAttrs : List Element → Int → Int → Except Unit (Int × Int)
  | [], seeders, peers => .ok (seeders, peers)
  | a :: rest, seeders, peers =>
    match getAttr a "name", getAttr a "value" with
    | some "seeders", some v =>
      if v != "" then
        match pyInt v with
        | some n => scanAttrs rest n peers
        | none => .error ()
      else scanAttrs rest seeders peers
    | some "peers", some v =>
      if v != "" then
        match pyInt v with
        | some n => scanAttrs rest seeders n
        | none => .error ()
      else scanAttrs rest seeders peers
    | _, _ => scanAttrs rest seeders peers

/-- Detail-page link: the text of the `comments` child when present (Python
`None` when that child is empty), else the text of the `guid` child when
present, else the empty string. -/
def descLink (item : Element) : Option String :=
  match findChild item "comments" with
  | some c => c.text
  | none =>
    match findChild item "guid" with
    | some g => g.text
    | none => some ""

/-- The per-item body of the parse loop in `_parse_torznab_xml`:
`.ok none` is the `continue` taken when no truthy link resolves,
`.error ()` is an exception escaping the loop body (caught only at the
whole-document level), and `.ok (some r)` appends the result dict. -/
def parseItem (item : Element) : Except Unit (Option SearchResult) :=
  match resolveLink item with
  | none => .ok none
  | some l =>
    if l = "" then .ok none
    else
      match parseSize item with
      | .error e => .error e
      | .ok size =>
        match scanAttrs (findAllDesc item tnAttrTag) 0 0 with
        | .error e => .error e
        | .ok (seeders, peers) =>
          .ok (some {
            title := titleOf item
            magnet_link := l
            enclosure := l
            description := ""
            type := "torrent"
            size := size
            pubdate := pubdateOf item
            seeders := seeders
            peers := peers
            leechers := if peers > 0 ∧ seeders > 0 then peers - seeders else 0
            page_url := descLink item })

/-- The item loop of `_parse_torznab_xml`: results accumulate in order;
an exception from any item aborts the loop and discards the results
accumulated so far (the enclosing handler returns an empty list). -/
def parseItems : List Element → Except Unit (List SearchResult)
  | [] => .ok []
  | it :: rest =>
    match parseItem it with
    | .error e => .error e
    | .ok none => parseItems rest
    | .ok (some r) =>
      match parseItems rest with
      | .error e => .error e
      | .ok rs => .ok (r :: rs)

/-- Model of `_parse_torznab_xml`: the argument is the outcome of
`xml.etree.ElementTree.fromstring` on the response body (`.error ()` when
the input is not well-formed XML). Any exception — from `fromstring` or
from the item loop — is caught and turned into an empty result list. -/
def parseTorznabXml (doc : Except Unit Element) : List SearchResult :=
  match doc with
  | .error _ => []
  | .ok root =>
    match parseItems (findAllDesc root "item") with
    | .error _ => []
    | .ok rs => rs

/-- Media-type filter values recognised by `_search_indexer`; any other
value adds no category parameter. -/
inductive MediaT where
  | movie
  | tv
deriving DecidableEq

/-- Model of `str.replace(tt, empty)` specialised to the pattern used by the source:
removes every non-overlapping occurrence of tt, scanning left to right. -/
def replaceTT : List Char → List Char
  | [] => []
  | [c] => [c]
  | c1 :: c2 :: rest =>
    if c1 = 't' ∧ c2 = 't' then replaceTT rest
    else c1 :: replaceTT (c2 :: rest)

/-- The imdb id transformation of `_search_indexer`:
`imdb_id.replace("tt", "")`. -/
def stripTT (s : String) : String :=
  String.mk (replaceTT s.data)

def movieCats : String := "2000,2010,2020,2030,2040,2045,2050,2060"

def tvCats : String := "5000,5010,5020,5030,5040,5045,5050,5060,5070,5080"

/-- The query parameters built by `_search_indexer`, in dict insertion
order: apikey, t=search, q, then imdbid when a truthy imdb id is supplied,
then cat for a movie or tv media type. -/
def torznabParams (apiKey keyWord : String) (mediaType : Option MediaT)
    (imdbId : Option String) : List (String × String) :=
  let params := [("apikey", apiKey), ("t", "search"), ("q", keyWord)]
  let params :=
    if truthy imdbId then
      params ++ [("imdbid", stripTT (imdbId.getD ""))]
    else params
  match mediaType with
  | some .movie => params ++ [("cat", movieCats)]
  | some .tv => params ++ [("cat", tvCats)]
  | none => params

/-- First value bound to a key in a parameter list. -/
def paramVal (ps : List (String × String)) (k : String) : Option String :=
  (ps.find? (fun p => p.1 == k)).map (fun p => p.2)

/-- One configured indexer as returned by the Jackett indexer list:
an id and an optional display name. -/
structure Indexer where
  id : String
  name : Option String
deriving DecidableEq

/-- A search result after the aggregation loop tagged it with its source
indexer (the mutation item[site] = indexer.get(name) or indexer_id). -/
structure TaggedResult where
  result : SearchResult
  site : String
deriving DecidableEq

/-- indexer.get(name) or indexer_id: the display name when truthy, else
the id. -/
def siteOf (ix : Indexer) : String :=
  if truthy ix.name then ix.name.getD "" else ix.id

/-- The plugin state consulted by `search_medias`. -/
structure JackettConfig where
  enabled : Bool
  apiKey : String
  url : String
  indexersFilter : String
  indexers : List Indexer

/-- Model of `get_state`: enabled and both the api key and the url are
truthy. -/
def getState (c : JackettConfig) : Bool :=
  c.enabled && c.apiKey != "" && c.url != ""

/-- The indexer filter of `search_medias`: with a truthy filter string,
keep (in their original order) the indexers whose id occurs in the
comma-split filter; otherwise keep all indexers. -/
def filterIndexers (filter : String) (indexers : List Indexer) :
    List Indexer :=
  if filter = "" then indexers
  else indexers.filter (fun ix => (filter.splitOn ",").contains ix.id)

/-- The per-indexer loop of `search_medias`. Each indexer is queried
through `_search_indexer`, abstracted here as an oracle from indexer id to
either a raised exception (`.error`, caught by the per-indexer handler
which logs and continues) or a result list; successful results are tagged
with the site name of the indexer and appended in order. -/
def searchLoop (indexers : List Indexer)
    (fetch : String → Except String (List SearchResult)) :
    List TaggedResult :=
  indexers.flatMap (fun ix =>
    match fetch ix.id with
    | .error _ => []
    | .ok rs => rs.map (fun r => TaggedResult.mk r (siteOf ix)))

/-- Model of `search_medias`: refuse when disabled or unconfigured, return `None`
on a falsy keyword before issuing any request, otherwise run the loop over
the filtered indexers and return the results (or `None` when the list is
empty). The second component is the list of indexer ids actually queried —
each loop iteration issues exactly one outbound HTTP request. -/
def searchMedias (c : JackettConfig) (keyWord : Option String)
    (fetch : String → Except String (List SearchResult)) :
    Option (List TaggedResult) × List String :=
  if getState c = false then (none, [])
  else if truthy keyWord = false then (none, [])
  else
    let selected := filterIndexers c.indexersFilter c.indexers
    let results := searchLoop selected fetch
    (if results = [] then none else some results, selected.map (fun ix => ix.id))

end Jackett

/-! ## Infrastructure lemmas -/

namespace Jackett

theorem parseItem_ok_some {it : Element} {r : SearchResult}
    (h : parseItem it = .ok (some r)) :
    resolveLink it = some r.magnet_link ∧ r.magnet_link ≠ "" ∧
    r.enclosure = r.magnet_link ∧ r.description = "" ∧ r.type = "torrent" ∧
    r.title = titleOf it ∧ r.pubdate = pubdateOf it ∧
    r.page_url = descLink it ∧ parseSize it = .ok r.size ∧
    scanAttrs (findAllDesc it tnAttrTag) 0 0 = .ok (r.seeders, r.peers) ∧
    r.leechers =
      (if r.peers > 0 ∧ r.seeders > 0 then r.peers - r.seeders else 0) := by
  unfold parseItem at h
  cases hl : resolveLink it with
  | none => rw [hl] at h; simp at h
  | some l =>
    rw [hl] at h
    simp only [] at h
    by_cases he : l = ""
    · simp [he] at h
    · rw [if_neg he] at h
      cases hs : parseSize it with
      | error e => rw [hs] at h; simp at h
      | ok size =>
        rw [hs] at h
        simp only [] at h
        cases ha : scanAttrs (findAllDesc it tnAttrTag) 0 0 with
        | error e => rw [ha] at h; simp at h
        | ok sp =>
          obtain ⟨seeders, peers⟩ := sp
          rw [ha] at h
          simp only [Except.ok.injEq, Option.some.injEq] at h
          subst h
          exact ⟨rfl, he, rfl, rfl, rfl, rfl, rfl, rfl, rfl, rfl, rfl⟩

theorem parseItem_ok_none_iff {it : Element} :
    parseItem it = .ok none ↔ truthy (resolveLink it) = false := by
  unfold parseItem
  cases hl : resolveLink it with
  | none => simp [truthy]
  | some l =>
    simp only []
    by_cases he : l = ""
    · simp [he, truthy]
    · rw [if_neg he]
      simp only [truthy]
      constructor
      · intro h
        exfalso
        cases hs : parseSize it with
        | error e => rw [hs] at h; simp at h
        | ok size =>
          rw [hs] at h
          simp only [] at h
          cases ha : scanAttrs (findAllDesc it tnAttrTag) 0 0 with
          | error e => rw [ha] at h; simp at h
          | ok sp => obtain ⟨a, b⟩ := sp; rw [ha] at h; simp at h
      · intro hrhs
        exact absurd (by simpa using hrhs) he

theorem parseItems_mem {items : List Element} {rs : List SearchResult}
    (h : parseItems items = .ok rs) :
    ∀ r ∈ rs, ∃ it ∈ items, parseItem it = .ok (some r) := by
  induction items generalizing rs with
  | nil =>
    unfold parseItems at h
    simp only [Except.ok.injEq] at h
    subst h
    intro r hr
    simp at hr
  | cons it rest ih =>
    unfold parseItems at h
    cases hp : parseItem it with
    | error e => rw [hp] at h; simp at h
    | ok o =>
      cases o with
      | none =>
        rw [hp] at h
        simp only [] at h
        intro r hr
        obtain ⟨it2, hm, hp2⟩ := ih h r hr
        exact ⟨it2, List.mem_cons_of_mem _ hm, hp2⟩
      | some r0 =>
        rw [hp] at h
        simp only [] at h
        cases hrest : parseItems rest with
        | error e => rw [hrest] at h; simp at h
        | ok rs0 =>
          rw [hrest] at h
          simp only [Except.ok.injEq] at h
          subst h
          intro r hr
          rcases List.mem_cons.mp hr with hr | hr
          · subst hr; exact ⟨it, List.mem_cons_self _ _, hp⟩
          · obtain ⟨it2, hm, hp2⟩ := ih hrest r hr
            exact ⟨it2, List.mem_cons_of_mem _ hm, hp2⟩

theorem parseItems_length {items : List Element} {rs : List SearchResult}
    (h : parseItems items = .ok rs) :
    rs.length = (items.filter (fun it => truthy (resolveLink it))).length := by
  induction items generalizing rs with
  | nil =>
    unfold parseItems at h
    simp only [Except.ok.injEq] at h
    subst h
    rfl
  | cons it rest ih =>
    unfold parseItems at h
    cases hp : parseItem it with
    | error e => rw [hp] at h; simp at h
    | ok o =>
      cases o with
      | none =>
        rw [hp] at h
        simp only [] at h
        have hf : truthy (resolveLink it) = false := parseItem_ok_none_iff.mp hp
        rw [List.filter_cons_of_neg (by simp [hf])]
        exact ih h
      | some r0 =>
        rw [hp] at h
        simp only [] at h
        cases hrest : parseItems rest with
        | error e => rw [hrest] at h; simp at h
        | ok rs0 =>
          rw [hrest] at h
          simp only [Except.ok.injEq] at h
          subst h
          have ht : truthy (resolveLink it) = true := by
            obtain ⟨hl, he, _⟩ := parseItem_ok_some hp
            simp [truthy, hl, bne_iff_ne, he]
          rw [List.filter_cons_of_pos (by simp [ht])]
          simp [ih hrest]

theorem length_filter_add_length_filter_not {α : Type} (l : List α)
    (p : α → Bool) :
    (l.filter p).length + (l.filter (fun a => !(p a))).length = l.length := by
  induction l with
  | nil => rfl
  | cons a l ih =>
    by_cases h : p a = true
    · rw [List.filter_cons_of_pos (by simp [h]),
        List.filter_cons_of_neg (by simp [h])]
      simp only [List.length_cons]
      omega
    · rw [List.filter_cons_of_neg (by simp [h]),
        List.filter_cons_of_pos (by simp at h; simp [h])]
      simp only [List.length_cons]
      omega

end Jackett

/-! ## Concrete documents used by witnesses and counterexamples -/

namespace Jackett

/-- Enclosure element of the worked example in the spec. -/
def exEnc : Element :=
  .mk "enclosure"
    [("url", "http://x/1.torrent"), ("type", "application/x-bittorrent")]
    none []

/-- Item of the worked example in the spec: title, torrent enclosure,
size 1000000000, seeders 10, peers 15. -/
def exItem : Element := .mk "item" [] none [
  .mk "title" [] (some "Example.Movie.2020") [],
  exEnc,
  .mk "size" [] (some "1000000000") [],
  .mk tnAttrTag [("name", "seeders"), ("value", "10")] none [],
  .mk tnAttrTag [("name", "peers"), ("value", "15")] none []]

/-- Document wrapping the worked example item in rss/channel. -/
def exDoc : Element := .mk "rss" [] none [.mk "channel" [] none [exItem]]

/-- Expected parse of the worked example item. -/
def exRes : SearchResult := {
  title := some "Example.Movie.2020"
  magnet_link := "http://x/1.torrent"
  enclosure := "http://x/1.torrent"
  description := ""
  type := "torrent"
  size := 1000000000
  pubdate := some ""
  seeders := 10
  peers := 15
  leechers := 5
  page_url := some "" }

/-- Item whose torznab attributes report more seeders (10) than
peers (3). -/
def negItem : Element := .mk "item" [] none [
  .mk "link" [] (some "http://l") [],
  .mk tnAttrTag [("name", "seeders"), ("value", "10")] none [],
  .mk tnAttrTag [("name", "peers"), ("value", "3")] none []]

/-- Document wrapping negItem. -/
def negDoc : Element := .mk "rss" [] none [.mk "channel" [] none [negItem]]

/-- Expected parse of negItem: the leechers field is negative. -/
def negRes : SearchResult := {
  title := some ""
  magnet_link := "http://l"
  enclosure := "http://l"
  description := ""
  type := "torrent"
  size := 0
  pubdate := some ""
  seeders := 10
  peers := 3
  leechers := -7
  page_url := some "" }

/-- Item with a usable link but a non-numeric size text. -/
def badSizeItem : Element := .mk "item" [] none [
  .mk "link" [] (some "http://a") [],
  .mk "size" [] (some "abc") []]

/-- Item with no enclosure, no magneturl attr and no link child. -/
def noLinkItem : Element := .mk "item" [] none [
  .mk "title" [] (some "t") []]

/-- Document holding a linked item with a bad size next to a linkless
item. -/
def c3Doc : Element :=
  .mk "rss" [] none [.mk "channel" [] none [badSizeItem, noLinkItem]]

/-- Item with a plain link and no size child; parses cleanly. -/
def c3wItem : Element := .mk "item" [] none [
  .mk "link" [] (some "http://a") []]

/-- Document with one cleanly-parsing linked item and one linkless
item. -/
def c3wDoc : Element :=
  .mk "rss" [] none [.mk "channel" [] none [c3wItem, noLinkItem]]

/-- Expected parse of c3wItem. -/
def c3wRes : SearchResult := {
  title := some ""
  magnet_link := "http://a"
  enclosure := "http://a"
  description := ""
  type := "torrent"
  size := 0
  pubdate := some ""
  seeders := 0
  peers := 0
  leechers := 0
  page_url := some "" }

/-- Item with a torrent enclosure and a numeric size. -/
def c4GoodItem : Element := .mk "item" [] none [
  .mk "enclosure"
    [("url", "http://g/2.torrent"), ("type", "application/x-bittorrent")]
    none [],
  .mk "size" [] (some "500") []]

/-- Expected parse of c4GoodItem. -/
def c4GoodRes : SearchResult := {
  title := some ""
  magnet_link := "http://g/2.torrent"
  enclosure := "http://g/2.torrent"
  description := ""
  type := "torrent"
  size := 500
  pubdate := some ""
  seeders := 0
  peers := 0
  leechers := 0
  page_url := some "" }

/-- Document holding only the good item. -/
def c4SoloDoc : Element :=
  .mk "rss" [] none [.mk "channel" [] none [c4GoodItem]]

/-- Document holding the good item next to a sibling whose size text is
non-numeric. -/
def c4PairDoc : Element :=
  .mk "rss" [] none [.mk "channel" [] none [c4GoodItem, badSizeItem]]

/-- Torznab attr element carrying a magnet link. -/
def magAttrEl : Element :=
  .mk tnAttrTag [("name", "magneturl"), ("value", "magnet:?xt=1")] none []

/-- Item carrying a magneturl torznab attr and a plain link child; the
magnet wins. -/
def magItem : Element := .mk "item" [] none [
  magAttrEl,
  .mk "link" [] (some "http://shadowed") []]

/-- Item with a present but empty comments child and a guid child. -/
def c9Item : Element := .mk "item" [] none [
  .mk "link" [] (some "http://d") [],
  .mk "comments" [] none [],
  .mk "guid" [] (some "http://g") []]

/-- Document wrapping c9Item. -/
def c9Doc : Element := .mk "rss" [] none [.mk "channel" [] none [c9Item]]

/-- Item with a link and a guid child only; the detail link falls back to
the guid text. -/
def c9wItem : Element := .mk "item" [] none [
  .mk "link" [] (some "http://d") [],
  .mk "guid" [] (some "http://g") []]

/-- Document wrapping c9wItem. -/
def c9wDoc : Element := .mk "rss" [] none [.mk "channel" [] none [c9wItem]]

/-- Expected parse of c9wItem. -/
def c9wRes : SearchResult := {
  title := some ""
  magnet_link := "http://d"
  enclosure := "http://d"
  description := ""
  type := "torrent"
  size := 0
  pubdate := some ""
  seeders := 0
  peers := 0
  leechers := 0
  page_url := some "http://g" }

/-- Indexer with a display name. -/
def ixGood : Indexer := { id := "good", name := some "Good" }

/-- Indexer without a display name; its fetch fails in the C2 witness. -/
def ixBad : Indexer := { id := "bad", name := none }

/-- Enabled configuration listing ixGood and ixBad with no filter. -/
def c2Config : JackettConfig := {
  enabled := true
  apiKey := "k"
  url := "http://jackett"
  indexersFilter := ""
  indexers := [ixGood, ixBad] }

/-- Fetch oracle that raises for the bad indexer and returns the worked
example result for every other indexer. -/
def c2Fetch : String → Except String (List SearchResult) :=
  fun ixid => if ixid = "bad" then .error "boom" else .ok [exRes]

end Jackett

/-! ## Claims -/

namespace Jackett

/-- C1 counterexample: the parser emits, for a document whose single item
reports seeders 10 and peers 3, a record with leechers -7 — a negative
value differing from max(peers - seeders, 0) = 0 — refuting the claim
that the normalized leechers field equals max(peers - seeders, 0) and is
never negative. -/
theorem C1_leechers_negative_cex :
    (parseTorznabXml (.ok negDoc)).map SearchResult.leechers = [-7] ∧
    ((-7 : Int) < 0) ∧ ¬((-7 : Int) = max ((3 : Int) - 10) 0) :=
  ⟨by decide, by decide, by decide⟩

/-- C1 as amended: for every record emitted by the torznab parser, the
leechers field equals peers - seeders when both peers and seeders are
positive, and 0 otherwise; in particular it is peers - seeders (negative)
rather than 0 when 0 < peers < seeders, and 0 rather than peers when
peers > 0 = seeders. -/
theorem C1_leechers_formula (doc : Except Unit Element) (r : SearchResult)
    (hr : r ∈ parseTorznabXml doc) :
    r.leechers =
      if r.peers > 0 ∧ r.seeders > 0 then r.peers - r.seeders else 0 := by
  cases doc with
  | error e => simp [parseTorznabXml] at hr
  | ok root =>
    unfold parseTorznabXml at hr
    simp only [] at hr
    cases hp : parseItems (findAllDesc root "item") with
    | error e => rw [hp] at hr; simp at hr
    | ok rs =>
      rw [hp] at hr
      simp only [] at hr
      obtain ⟨it, _, hit⟩ := parseItems_mem hp r hr
      obtain ⟨_, _, _, _, _, _, _, _, _, _, hlee⟩ := parseItem_ok_some hit
      exact hlee

/-- Witness for C1_leechers_formula at the concrete document negDoc. -/
theorem C1_leechers_formula_witness :
    negRes ∈ parseTorznabXml (.ok negDoc) ∧
    negRes.leechers =
      (if negRes.peers > 0 ∧ negRes.seeders > 0 then
        negRes.peers - negRes.seeders else 0) :=
  ⟨by decide, C1_leechers_formula (.ok negDoc) negRes (by decide)⟩

/-- C5: an input that is not well-formed XML — any input on which
fromstring raises — yields the empty result list from the parser instead
of a propagated exception. -/
theorem C5_malformed_xml (e : Unit) : parseTorznabXml (.error e) = [] := rfl

/-- C10: every record emitted by the torznab parser carries the single
resolved download link in both the magnet_link and the enclosure field,
an empty description, and the type torrent. -/
theorem C10_constant_fields (doc : Except Unit Element) (r : SearchResult)
    (hr : r ∈ parseTorznabXml doc) :
    r.magnet_link = r.enclosure ∧ r.description = "" ∧ r.type = "torrent" := by
  cases doc with
  | error e => simp [parseTorznabXml] at hr
  | ok root =>
    unfold parseTorznabXml at hr
    simp only [] at hr
    cases hp : parseItems (findAllDesc root "item") with
    | error e => rw [hp] at hr; simp at hr
    | ok rs =>
      rw [hp] at hr
      simp only [] at hr
      obtain ⟨it, _, hit⟩ := parseItems_mem hp r hr
      obtain ⟨_, _, henc, hdesc, htype, _⟩ := parseItem_ok_some hit
      exact ⟨henc.symm, hdesc, htype⟩

/-- Witness for C10_constant_fields at the worked example document. -/
theorem C10_constant_fields_witness :
    exRes ∈ parseTorznabXml (.ok exDoc) ∧
    (exRes.magnet_link = exRes.enclosure ∧ exRes.description = "" ∧
      exRes.type = "torrent") :=
  ⟨by decide, C10_constant_fields (.ok exDoc) exRes (by decide)⟩

end Jackett

namespace Jackett

/-- C3 counterexample: in a document with two items — one carrying a link
but a non-numeric size, one linkless — the claimed output size
(items minus linkless items = 1) is not met: the size coercion raises,
the document-level handler empties the whole output, and the parser
returns 0 records. -/
theorem C3_count_cex :
    parseTorznabXml (.ok c3Doc) = [] ∧
    (findAllDesc c3Doc "item").length = 2 ∧
    ((findAllDesc c3Doc "item").filter
      (fun it => !(truthy (resolveLink it)))).length = 1 ∧
    (parseTorznabXml (.ok c3Doc)).length ≠ 2 - 1 :=
  ⟨by decide, by decide, by decide, by decide⟩

/-- C3 as amended: every record emitted by the torznab parser has a
non-empty download link, and linkless items are dropped rather than
emitted; provided the item loop raises no exception (every link-carrying
item has coercible numeric fields), the output size equals the number of
items minus the number of linkless items — but when any coercion raises,
the whole output is empty instead. -/
theorem C3_linkless_dropped (root : Element) (rs : List SearchResult)
    (h : parseItems (findAllDesc root "item") = .ok rs) :
    parseTorznabXml (.ok root) = rs ∧
    (∀ r ∈ rs, r.magnet_link ≠ "") ∧
    rs.length = (findAllDesc root "item").length -
      ((findAllDesc root "item").filter
        (fun it => !(truthy (resolveLink it)))).length := by
  refine ⟨?_, ?_, ?_⟩
  · unfold parseTorznabXml
    simp only []
    rw [h]
  · intro r hr
    obtain ⟨it, _, hit⟩ := parseItems_mem h r hr
    exact (parseItem_ok_some hit).2.1
  · have h1 := parseItems_length h
    have h2 := length_filter_add_length_filter_not (findAllDesc root "item")
      (fun it => truthy (resolveLink it))
    omega

/-- Witness for C3_linkless_dropped on a document with one linked and one
linkless item. -/
theorem C3_linkless_dropped_witness :
    parseTorznabXml (.ok c3wDoc) = [c3wRes] ∧
    (∀ r ∈ [c3wRes], r.magnet_link ≠ "") ∧
    ([c3wRes] : List SearchResult).length =
      (findAllDesc c3wDoc "item").length -
      ((findAllDesc c3wDoc "item").filter
        (fun it => !(truthy (resolveLink it)))).length :=
  C3_linkless_dropped c3wDoc [c3wRes] rfl

/-- C4 counterexample: a document holding only the well-formed item parses
to one record of size 500, but adding a sibling item whose size text is
non-numeric empties the entire output — the sibling record is lost,
refuting the claim that a size-coercion failure on one item never loses
the whole record or its siblings. -/
theorem C4_sibling_loss_cex :
    parseTorznabXml (.ok c4SoloDoc) = [c4GoodRes] ∧ c4GoodRes.size = 500 ∧
    parseTorznabXml (.ok c4PairDoc) = [] :=
  ⟨by decide, by decide, by decide⟩

/-- C4 as amended: when the item loop completes without raising, the size
field of every emitted record is 0 when its item has no size child, and
the parsed integer of the size text otherwise; but a size child whose
text is absent or non-numeric raises, the exception is caught only at the
document level, and the entire result list — the failing record together
with all sibling records — becomes empty. -/
theorem C4_size_coercion :
    (∀ (root : Element) (rs : List SearchResult),
      parseItems (findAllDesc root "item") = .ok rs →
      ∀ r ∈ rs, ∃ it ∈ findAllDesc root "item",
        (match findChild it "size" with
         | none => r.size = 0
         | some el => ∃ s, el.text = some s ∧ pyInt s = some r.size)) ∧
    (∀ (root : Element) (e : Unit),
      parseItems (findAllDesc root "item") = .error e →
      parseTorznabXml (.ok root) = []) := by
  constructor
  · intro root rs h r hr
    obtain ⟨it, hmem, hit⟩ := parseItems_mem h r hr
    refine ⟨it, hmem, ?_⟩
    have hs := (parseItem_ok_some hit).2.2.2.2.2.2.2.2.1
    unfold parseSize at hs
    cases hfc : findChild it "size" with
    | none =>
      rw [hfc] at hs
      simp only [Except.ok.injEq] at hs
      simp only []
      omega
    | some el =>
      rw [hfc] at hs
      simp only [] at hs
      cases htx : el.text with
      | none => rw [htx] at hs; simp at hs
      | some s =>
        rw [htx] at hs
        simp only [] at hs
        cases hpi : pyInt s with
        | none => rw [hpi] at hs; simp at hs
        | some n =>
          rw [hpi] at hs
          simp only [Except.ok.injEq] at hs
          exact ⟨s, htx, by rw [hpi, hs]⟩
  · intro root e h
    unfold parseTorznabXml
    simp only []
    rw [h]

/-- Witness for C4_size_coercion: the size clause at the worked example
document and the document-level emptying at the two-item document with a
bad size. -/
theorem C4_size_coercion_witness :
    (∃ it ∈ findAllDesc exDoc "item",
      (match findChild it "size" with
       | none => exRes.size = 0
       | some el => ∃ s, el.text = some s ∧ pyInt s = some exRes.size)) ∧
    parseTorznabXml (.ok c3Doc) = [] :=
  ⟨C4_size_coercion.1 exDoc [exRes] rfl exRes (by decide),
   C4_size_coercion.2 c3Doc () rfl⟩

end Jackett

namespace Jackett

/-- C9 counterexample: when the comments child is present but empty, the
parser stores Python None in the page_url field — not a string, not the
empty string, and not the guid fallback — refuting the claim that the
field is always a string given by comments text, else guid text, else
empty. -/
theorem C9_page_url_cex :
    (parseTorznabXml (.ok c9Doc)).map SearchResult.page_url = [none] ∧
    (none : Option String) ≠ some "" ∧
    (none : Option String) ≠ some "http://g" :=
  ⟨by decide, by decide, by decide⟩

/-- C9 as amended: for every emitted record, the page_url field equals the
text of the comments child of its item when that child is present — which
is None, not a string, when the child has no text — else the text of the
guid child when present (again None when that child has no text), else
the empty string. -/
theorem C9_page_url (root : Element) (rs : List SearchResult)
    (h : parseItems (findAllDesc root "item") = .ok rs) :
    parseTorznabXml (.ok root) = rs ∧
    ∀ r ∈ rs, ∃ it ∈ findAllDesc root "item",
      r.page_url =
        (match findChild it "comments" with
         | some cEl => cEl.text
         | none =>
           match findChild it "guid" with
           | some g => g.text
           | none => some "") := by
  constructor
  · unfold parseTorznabXml
    simp only []
    rw [h]
  · intro r hr
    obtain ⟨it, hmem, hit⟩ := parseItems_mem h r hr
    refine ⟨it, hmem, ?_⟩
    have hp := (parseItem_ok_some hit).2.2.2.2.2.2.2.1
    rw [hp]
    rfl

/-- Witness for C9_page_url on a document whose item has a guid child but
no comments child. -/
theorem C9_page_url_witness :
    parseTorznabXml (.ok c9wDoc) = [c9wRes] ∧
    ∀ r ∈ [c9wRes], ∃ it ∈ findAllDesc c9wDoc "item",
      r.page_url =
        (match findChild it "comments" with
         | some cEl => cEl.text
         | none =>
           match findChild it "guid" with
           | some g => g.text
           | none => some "") :=
  C9_page_url c9wDoc [c9wRes] rfl

end Jackett

namespace Jackett

theorem enclosureLink_cons (e : Element) (l : List Element) :
    enclosureLink (e :: l) =
      if getAttr e "type" == some "application/x-bittorrent" then
        getAttr e "url"
      else enclosureLink l := rfl

theorem enclosureLink_none {l : List Element}
    (h : ∀ e ∈ l, getAttr e "type" ≠ some "application/x-bittorrent") :
    enclosureLink l = none := by
  induction l with
  | nil => rfl
  | cons e rest ih =>
    rw [enclosureLink_cons,
      if_neg (by simp [h e (List.mem_cons_self _ _)])]
    exact ih (fun x hx => h x (List.mem_cons_of_mem _ hx))

theorem enclosureLink_append_of_none {pre rest : List Element}
    (h : ∀ e ∈ pre, getAttr e "type" ≠ some "application/x-bittorrent") :
    enclosureLink (pre ++ rest) = enclosureLink rest := by
  induction pre with
  | nil => rfl
  | cons e p ih =>
    rw [List.cons_append, enclosureLink_cons,
      if_neg (by simp [h e (List.mem_cons_self _ _)])]
    exact ih (fun x hx => h x (List.mem_cons_of_mem _ hx))

/-- C6: the download link of an item is resolved in a fixed order, first
match wins. The record link is the resolved link; the url of the first
torrent-type enclosure wins when present and non-empty; with no
torrent-type enclosure, the value attribute of the magneturl torznab attr
element wins when that element is found; with neither, the text of the
plain link child is used. -/
theorem C6_link_resolution_order (it : Element) :
    (∀ r : SearchResult, parseItem it = .ok (some r) →
      resolveLink it = some r.magnet_link) ∧
    (∀ (pre post : List Element) (e : Element) (u : String),
      childrenTagged it "enclosure" = pre ++ e :: post →
      (∀ e2 ∈ pre, getAttr e2 "type" ≠ some "application/x-bittorrent") →
      getAttr e "type" = some "application/x-bittorrent" →
      getAttr e "url" = some u → u ≠ "" →
      resolveLink it = some u) ∧
    (∀ (m : Element) (v : String),
      (∀ e2 ∈ childrenTagged it "enclosure",
        getAttr e2 "type" ≠ some "application/x-bittorrent") →
      findMagnet it = some m → getAttr m "value" = some v →
      resolveLink it = some v) ∧
    ((∀ e2 ∈ childrenTagged it "enclosure",
        getAttr e2 "type" ≠ some "application/x-bittorrent") →
      findMagnet it = none →
      resolveLink it =
        (match findChild it "link" with
         | some le => le.text
         | none => none)) := by
  refine ⟨?_, ?_, ?_, ?_⟩
  · intro r hr
    exact (parseItem_ok_some hr).1
  · intro pre post e u hsel hpre htype hurl hne
    have hlink : enclosureLink (childrenTagged it "enclosure") = some u := by
      rw [hsel, enclosureLink_append_of_none hpre, enclosureLink_cons,
        if_pos (by simp [htype]), hurl]
    unfold resolveLink
    rw [hlink, if_pos (by simp [truthy, bne_iff_ne, hne])]
  · intro m v hno hm hv
    unfold resolveLink
    rw [enclosureLink_none hno]
    simp only [truthy, Bool.false_eq_true, if_false]
    rw [hm]
    exact hv
  · intro hno hm
    unfold resolveLink
    rw [enclosureLink_none hno]
    simp only [truthy, Bool.false_eq_true, if_false]
    rw [hm]

/-- Witness for C6_link_resolution_order: the enclosure case on the worked
example item, the magneturl case on magItem (shadowing its link child),
and the plain-link case on negItem. -/
theorem C6_link_resolution_order_witness :
    resolveLink exItem = some "http://x/1.torrent" ∧
    resolveLink magItem = some "magnet:?xt=1" ∧
    resolveLink negItem = some "http://l" := by
  refine ⟨?_, ?_, ?_⟩
  · exact (C6_link_resolution_order exItem).2.1 [] [] exEnc "http://x/1.torrent"
      rfl (by simp) rfl rfl (by decide)
  · exact (C6_link_resolution_order magItem).2.2.1 magAttrEl "magnet:?xt=1"
      (by decide) rfl rfl
  · have h := (C6_link_resolution_order negItem).2.2.2 (by decide) rfl
    rw [h]
    rfl

end Jackett

namespace Jackett

/-- C2: in the aggregation of search_medias, an indexer whose fetch raises
is skipped by the per-indexer handler: the loop output over the full
indexer list equals the concatenation of the outputs over the indexers
before and after the failing one, and with a valid state and a non-empty
keyword the search returns exactly that concatenation (None only when it
is empty, as the source returns None for an empty result list). -/
theorem C2_failure_isolation (c : JackettConfig) (kw : String)
    (fetch : String → Except String (List SearchResult))
    (pre post : List Indexer) (ix : Indexer) (err : String)
    (hstate : getState c = true) (hkw : kw ≠ "")
    (hsel : filterIndexers c.indexersFilter c.indexers = pre ++ ix :: post)
    (hfail : fetch ix.id = .error err) :
    searchLoop (pre ++ ix :: post) fetch =
      searchLoop pre fetch ++ searchLoop post fetch ∧
    (searchMedias c (some kw) fetch).1 =
      (if searchLoop pre fetch ++ searchLoop post fetch = [] then none
       else some (searchLoop pre fetch ++ searchLoop post fetch)) := by
  have hsplit : searchLoop (pre ++ ix :: post) fetch =
      searchLoop pre fetch ++ searchLoop post fetch := by
    unfold searchLoop
    rw [List.flatMap_append, List.flatMap_cons, hfail]
    simp
  refine ⟨hsplit, ?_⟩
  unfold searchMedias
  rw [hstate]
  simp only [Bool.true_eq_false, if_false]
  have hk : truthy (some kw) = true := by simp [truthy, bne_iff_ne, hkw]
  rw [hk]
  simp only [Bool.true_eq_false, if_false]
  rw [hsel, hsplit]

/-- Witness for C2_failure_isolation: two configured indexers, the second
of which fails; the search returns exactly the tagged results of the
first. -/
theorem C2_failure_isolation_witness :
    searchLoop ([ixGood] ++ ixBad :: []) c2Fetch =
      searchLoop [ixGood] c2Fetch ++ searchLoop [] c2Fetch ∧
    (searchMedias c2Config (some "q") c2Fetch).1 =
      (if searchLoop [ixGood] c2Fetch ++ searchLoop [] c2Fetch = [] then none
       else some (searchLoop [ixGood] c2Fetch ++ searchLoop [] c2Fetch)) :=
  C2_failure_isolation c2Config "q" c2Fetch [ixGood] [] ixBad "boom"
    (by decide) (by decide) rfl rfl

/-- C7: a search invocation whose keyword is missing or empty returns no
results and issues zero outbound requests — the queried-indexer list is
empty — for every configuration and fetch oracle. -/
theorem C7_empty_keyword (c : JackettConfig)
    (fetch : String → Except String (List SearchResult)) :
    searchMedias c none fetch = (none, []) ∧
    searchMedias c (some "") fetch = (none, []) := by
  unfold searchMedias
  cases h : getState c <;> simp [truthy]

theorem replaceTT_tt (l : List Char) :
    replaceTT ('t' :: 't' :: l) = replaceTT l := by
  simp [replaceTT]

theorem replaceTT_cons_ne {c : Char} (cs : List Char) (h : c ≠ 't') :
    replaceTT (c :: cs) = c :: replaceTT cs := by
  cases cs <;> simp [replaceTT, h]

theorem replaceTT_no_t (l : List Char) (h : ∀ c ∈ l, c ≠ 't') :
    replaceTT l = l := by
  induction l with
  | nil => rfl
  | cons c cs ih =>
    rw [replaceTT_cons_ne cs (h c (List.mem_cons_self _ _)),
      ih (fun x hx => h x (List.mem_cons_of_mem _ hx))]

/-- C8 counterexample: with the identifier tt12tt34 supplied, the code
sends imdbid 1234 — replace removes every occurrence of tt — whereas
stripping only the leading tt prefix and transmitting the remainder
unchanged would give 12tt34. -/
theorem C8_imdbid_cex :
    paramVal (torznabParams "key" "query" none (some "tt12tt34")) "imdbid" =
      some "1234" ∧ ("1234" : String) ≠ "12tt34" :=
  ⟨by decide, by decide⟩

/-- C8 as amended: the imdbid query parameter sent by _search_indexer
equals the identifier with every occurrence of the substring tt removed;
for an identifier of the canonical shape tt followed by characters other
than t (such as digits), this coincides with stripping the leading tt
prefix and transmitting the remainder unchanged. -/
theorem C8_imdbid_param (k q : String) (mt : Option MediaT) (s : String)
    (hs : s ≠ "") :
    paramVal (torznabParams k q mt (some s)) "imdbid" = some (stripTT s) ∧
    ∀ rest : String, s = "tt" ++ rest → (∀ c ∈ rest.data, c ≠ 't') →
      stripTT s = rest := by
  constructor
  · have ht : truthy (some s) = true := by simp [truthy, bne_iff_ne, hs]
    unfold torznabParams
    rw [ht]
    simp only [if_true]
    cases mt with
    | none => rfl
    | some m => cases m <;> rfl
  · intro rest hrest hnot
    subst hrest
    unfold stripTT
    have hdata : ("tt" ++ rest).data = 't' :: 't' :: rest.data := by
      rw [String.data_append]
      rfl
    rw [hdata, replaceTT_tt, replaceTT_no_t rest.data hnot]

/-- Witness for C8_imdbid_param at the canonical identifier tt0133093. -/
theorem C8_imdbid_param_witness :
    paramVal (torznabParams "key" "q" none (some "tt0133093")) "imdbid" =
      some "0133093" := by
  have h := C8_imdbid_param "key" "q" none "tt0133093" (by decide)
  have h2 := h.2 "0133093" rfl (by decide)
  rw [h.1, h2]

end Jackett
